import Mathlib

/-!
Verification development for the conductor-mcp-server conversation subsystem.

The definitions below are a shallow embedding of the TypeScript sources:
`src/utils/memory.ts` (class `ConversationMemoryManager`, `loadConfig`),
`src/tools/planner.ts`, `src/tools/debug.ts`, `src/tools/chat.ts` and
`src/tools/consensus.ts`.

Modelling conventions:
- Timestamps (`Date.now()`) are natural numbers passed explicitly to every
  operation that reads the clock.  `now - updated_at` uses truncated `Nat`
  subtraction; since JavaScript's `now - updated_at > maxAge` is false
  whenever `updated_at ≥ now`, and truncated subtraction then yields `0`,
  the two agree on the comparison for all inputs.
- Conversation ids (`conv_${Date.now()}_${random}` strings in JS, unique by
  construction) are modelled as naturals drawn from a `nextId` counter kept
  in the manager state; `create` always allocates the fresh id `nextId`.
- The JS `Map` (which preserves insertion order, appends new keys at the
  end, and updates existing keys in place) is modelled as an association
  list `List (Nat × ConversationMemory)`; `Map.delete` is a filter on the
  key and in-place mutation of a stored record is a key-preserving `map`.
- `metadata?: Record<string, any>` is modelled as an association list of
  string keys and scalar values; a missing (`undefined`) metadata object
  behaves exactly like the empty record under JS object spread, so the
  default is the empty list.
-/

namespace Conductor

/-- Modelled from the spec: `Message` / `ChatMessage` (declared in the
repository's `src/types/index.ts`, which is not part of the provided
sources): a role (`system`, `user` or `assistant`) and text content. -/
inductive Role where
  | system
  | user
  | assistant
deriving DecidableEq

/-- Modelled from the spec: a chat message `{role, content}`. -/
structure ChatMessage where
  role : Role
  content : String
deriving DecidableEq

/-- Scalar JavaScript values stored in the open `metadata` record. -/
inductive JVal where
  | str (s : String)
  | num (n : Int)
  | booleanVal (b : Bool)
  | undef
deriving DecidableEq

/-- A JavaScript object used as an open key/value record. -/
abbrev Metadata := List (String × JVal)

/-- Property lookup on a JS object: the (first) binding of key `k`. -/
def objGet (o : Metadata) (k : String) : Option JVal :=
  (o.find? (fun p => p.1 == k)).map (fun p => p.2)

/-- Override of a single binding of the first object by the second during
a spread: the value is replaced when the second object binds the key. -/
def spreadOverride (b : Metadata) (p : String × JVal) : String × JVal :=
  match b.find? (fun q => q.1 == p.1) with
  | some q => (p.1, q.2)
  | none => p

/-- JS object spread `{...a, ...b}`: keys of `a` in order with values
overridden by `b` where both bind the key, followed by the bindings of `b`
whose keys are absent from `a`, in the order of `b`. -/
def objMerge (a b : Metadata) : Metadata :=
  a.map (spreadOverride b) ++
    b.filter (fun q => !(a.any (fun p => p.1 == q.1)))

/-- Modelled from the spec: the `ConversationMemory` record
`{id, messages, metadata, created_at, updated_at}` (declared in the
repository's `src/types/index.ts`, not part of the provided sources). -/
structure ConversationMemory where
  id : Nat
  messages : List ChatMessage
  metadata : Metadata
  created_at : Nat
  updated_at : Nat
deriving DecidableEq

/-- State of `ConversationMemoryManager` (src/utils/memory.ts): the private
`Map` of conversations plus the two hard-coded eviction thresholds and the
id-allocation counter standing in for `generateId`'s time/randomness. -/
structure ConversationMemoryManager where
  conversations : List (Nat × ConversationMemory)
  nextId : Nat
  maxConversations : Nat
  maxAge : Nat
deriving DecidableEq

namespace ConversationMemoryManager

/-- Field initializers of `ConversationMemoryManager`:
`maxConversations = 100`, `maxAge = 24 * 60 * 60 * 1000`, empty map. -/
def init : ConversationMemoryManager :=
  { conversations := []
    nextId := 0
    maxConversations := 100
    maxAge := 24 * 60 * 60 * 1000 }

/-- `size()`: number of tracked conversations. -/
def size (st : ConversationMemoryManager) : Nat :=
  st.conversations.length

/-- `get(id)`: `this.conversations.get(id)`. -/
def get (st : ConversationMemoryManager) (id : Nat) : Option ConversationMemory :=
  (st.conversations.find? (fun p => p.1 == id)).map (fun p => p.2)

/-- `getMessages(id)`: `conversation?.messages || []`.  (An existing empty
message array is truthy in JS, so the fallback `[]` is only taken when the
conversation is absent; either way the value is the list of messages, the
aliasing consequences of returning the live array are modelled at the call
sites in the tool embeddings.) -/
def getMessages (st : ConversationMemoryManager) (id : Nat) : List ChatMessage :=
  match st.get id with
  | some conversation => conversation.messages
  | none => []

/-- `addMessage(id, message)`: push onto the stored message array and
refresh `updated_at`; no-op when the id is absent. -/
def addMessage (st : ConversationMemoryManager) (id : Nat) (message : ChatMessage)
    (now : Nat) : ConversationMemoryManager :=
  { st with conversations := st.conversations.map fun p =>
      if p.1 == id then
        (p.1, { p.2 with messages := p.2.messages ++ [message], updated_at := now })
      else p }

/-- `updateMetadata(id, metadata)`: `{...conversation.metadata, ...metadata}`
and refresh `updated_at`; no-op when the id is absent. -/
def updateMetadata (st : ConversationMemoryManager) (id : Nat) (metadata : Metadata)
    (now : Nat) : ConversationMemoryManager :=
  { st with conversations := st.conversations.map fun p =>
      if p.1 == id then
        (p.1, { p.2 with metadata := objMerge p.2.metadata metadata, updated_at := now })
      else p }

/-- `delete(id)`: `this.conversations.delete(id)`. -/
def deleteConv (st : ConversationMemoryManager) (id : Nat) : ConversationMemoryManager :=
  { st with conversations := st.conversations.filter (fun p => !(p.1 == id)) }

/-- `clear()`: remove all conversations. -/
def clear (st : ConversationMemoryManager) : ConversationMemoryManager :=
  { st with conversations := [] }

/-- `cleanup()` (private, lines 84–105 of memory.ts).  The entry array
`conversations` is snapshotted once, before the age pass; the count pass
sorts that stale snapshot (JS `Array.prototype.sort` with the comparator
`a[1].updated_at - b[1].updated_at` is a stable ascending sort, matched
here by `List.mergeSort`) and deletes the ids of its first
`size - maxConversations` entries from the map. -/
def cleanup (st : ConversationMemoryManager) (now : Nat) : ConversationMemoryManager :=
  let conversations := st.conversations
  let afterAge := conversations.filter
    (fun p => !(decide (now - p.2.updated_at > st.maxAge)))
  if afterAge.length > st.maxConversations then
    let sorted := conversations.mergeSort
      (fun a b => decide (a.2.updated_at ≤ b.2.updated_at))
    let toRemove := sorted.take (afterAge.length - st.maxConversations)
    { st with conversations :=
        afterAge.filter (fun p => !(toRemove.any (fun q => q.1 == p.1))) }
  else
    { st with conversations := afterAge }

/-- The conversation record built by `create`. -/
def mkConv (id : Nat) (initialMessages : List ChatMessage) (metadata : Metadata)
    (now : Nat) : ConversationMemory :=
  { id := id
    messages := initialMessages
    metadata := metadata
    created_at := now
    updated_at := now }

/-- `create(initialMessages, metadata)`: allocate a fresh id, register the
new conversation (a fresh key, hence appended at the end of the `Map`'s
insertion order), run `cleanup`, and return the id. -/
def create (st : ConversationMemoryManager) (now : Nat)
    (initialMessages : List ChatMessage) (metadata : Metadata) :
    ConversationMemoryManager × Nat :=
  let id := st.nextId
  let st1 : ConversationMemoryManager :=
    { st with
      conversations := st.conversations ++ [(id, mkConv id initialMessages metadata now)]
      nextId := st.nextId + 1 }
  (st1.cleanup now, id)

end ConversationMemoryManager

/-- The module-level singleton `conversationMemory = new ConversationMemoryManager()`
shared by every tool. -/
def conversationMemory : ConversationMemoryManager := ConversationMemoryManager.init

/-- Leading-digit run consumed by `parseInt`. -/
def takeDigits (cs : List Char) : List Char :=
  cs.takeWhile (fun c => c.isDigit)

/-- Numeric value of a run of decimal digits (usual left fold). -/
def digitsToNat (cs : List Char) : Nat :=
  cs.foldl (fun n c => n * 10 + (c.toNat - '0'.toNat)) 0

/-- JavaScript `parseInt(s, 10)`: skip leading whitespace, read an optional
sign and then a leading run of decimal digits; `none` models `NaN` (no
digits found). -/
def parseIntJS (s : String) : Option Int :=
  let cs := s.toList.dropWhile (fun c => c == ' ' || c == '\t' || c == '\n' || c == '\r')
  match cs with
  | '-' :: rest =>
    match takeDigits rest with
    | [] => none
    | ds => some (-(Int.ofNat (digitsToNat ds)))
  | '+' :: rest =>
    match takeDigits rest with
    | [] => none
    | ds => some (Int.ofNat (digitsToNat ds))
  | _ =>
    match takeDigits cs with
    | [] => none
    | ds => some (Int.ofNat (digitsToNat ds))

/-- The `Config` record of src/utils/config.ts; `maxConversations` is the
result of `parseInt`, with `none` standing for `NaN`. -/
structure Config where
  ollamaBaseUrl : String
  defaultModel : String
  disabledTools : List String
  maxConversations : Option Int
  version : String
deriving DecidableEq

/-- `process.env.NAME || default`: the empty string is falsy, so an unset or
empty variable yields the default. -/
def envOr (env : String → Option String) (name dflt : String) : String :=
  match env name with
  | some s => if s = "" then dflt else s
  | none => dflt

/-- `loadConfig()` (src/utils/config.ts): reads the environment once.
`maxConversations = parseInt(process.env.MAX_CONVERSATIONS || "100", 10)`. -/
def loadConfig (env : String → Option String) : Config :=
  let disabledTools :=
    ((envOr env "DISABLED_TOOLS" "").splitOn ",").map
      (fun s => s.trim) |>.filter (fun s => !(s == ""))
  { ollamaBaseUrl := envOr env "OLLAMA_BASE_URL" "http://localhost:11434"
    defaultModel := envOr env "DEFAULT_MODEL" "qwen2.5:latest"
    disabledTools := disabledTools
    maxConversations := parseIntJS (envOr env "MAX_CONVERSATIONS" "100")
    version := "0.1.0" }

/-- JS truthiness of an optional number (`0` and `undefined` are falsy). -/
def natTruthy : Option Nat → Bool
  | some n => !(n == 0)
  | none => false

/-- JS truthiness of an optional string (`""` and `undefined` are falsy). -/
def strTruthy : Option String → Bool
  | some s => !(s == "")
  | none => false

/-- Template interpolation `${x}` of a possibly-undefined number. -/
def natInterp : Option Nat → String
  | some n => toString n
  | none => "undefined"

/-- Template interpolation `${x}` of a possibly-undefined string. -/
def strInterp : Option String → String
  | some s => s
  | none => "undefined"

/-- Metadata value for a possibly-undefined string field. -/
def jstrOpt : Option String → JVal
  | some s => JVal.str s
  | none => JVal.undef

/-- Raw `array.push` through an alias of a conversation's live message
array: appends to the stored messages of conversation `id` without
refreshing `updated_at` (unlike `addMessage`); invisible when the
conversation has been evicted from the map. -/
def rawAppend (st : ConversationMemoryManager) (id : Nat)
    (msgs : List ChatMessage) : ConversationMemoryManager :=
  { st with conversations := st.conversations.map fun p =>
      if p.1 == id then (p.1, { p.2 with messages := p.2.messages ++ msgs }) else p }

/-- Result of one tool `execute` call: the store afterwards, the resolved
conversation id, the `messages` array handed to `ollama.chat`, and the
returned text.  The tools' happy path returns `{content: [{type, text}]}`
with no `isError` field, recorded here as `isError := false`. -/
structure ToolResult where
  store : ConversationMemoryManager
  convId : Nat
  sentMessages : List ChatMessage
  responseText : String
  isError : Bool
deriving DecidableEq

/-- Input of the chat tool (src/tools/chat.ts), fields as destructured by
`execute`; `temperature` and `images` are forwarded verbatim and play no
role in the logic modelled here. -/
structure ChatInput where
  prompt : String
  files : List String
  model : String
  thinking_mode : Option String
  continuation_id : Option Nat
deriving DecidableEq

/-- `contextPrompt` of chat `execute`: the user prompt, prefixed with the
file list when `files` is non-empty. -/
def chatContextPrompt (inp : ChatInput) : String :=
  if inp.files.length > 0 then
    let fileContext := String.intercalate "\n" (inp.files.map (fun f => "File: " ++ f))
    "Context files:\n" ++ fileContext ++ "\n\n" ++ inp.prompt
  else
    inp.prompt

/-- The system message chat pushes when `thinking_mode` is set on a fresh
conversation. -/
def chatSystemMessage (thinking_mode : Option String) : ChatMessage :=
  { role := Role.system
    content := "You are operating in " ++ strInterp thinking_mode ++
      " thinking mode. Adjust your reasoning depth accordingly:\n- minimal: Quick, direct responses\n- low: Basic reasoning\n- medium: Moderate analysis\n- high: Deep analysis with multiple perspectives\n- max: Comprehensive reasoning with extensive exploration" }

/-- chat `execute` (src/tools/chat.ts).  `reply` is the message returned by
the inference backend (`response.message`); `now` is the clock during the
invocation.  Conversation resolution copies the stored history
(`messages = [...existingMessages]`), so chat has no aliasing into the
store; the `Conversation ID` trailer is appended only when no
`continuation_id` was supplied. -/
def chatExec (st : ConversationMemoryManager) (inp : ChatInput)
    (reply : ChatMessage) (now : Nat) : ToolResult :=
  let userMessage : ChatMessage := { role := Role.user, content := chatContextPrompt inp }
  match inp.continuation_id with
  | some cid =>
    let existingMessages := st.getMessages cid
    if existingMessages.length > 0 then
      let st2 := (st.addMessage cid userMessage now).addMessage cid reply now
      { store := st2
        convId := cid
        sentMessages := existingMessages ++ [userMessage]
        responseText := reply.content
        isError := false }
    else
      let created := st.create now []
        [("model", JVal.str inp.model), ("thinking_mode", jstrOpt inp.thinking_mode)]
      let sys := if strTruthy inp.thinking_mode then [chatSystemMessage inp.thinking_mode] else []
      let st2 := ((created.1).addMessage created.2 userMessage now).addMessage created.2 reply now
      { store := st2
        convId := created.2
        sentMessages := sys ++ [userMessage]
        responseText := reply.content
        isError := false }
  | none =>
    let created := st.create now []
      [("model", JVal.str inp.model), ("thinking_mode", jstrOpt inp.thinking_mode)]
    let sys := if strTruthy inp.thinking_mode then [chatSystemMessage inp.thinking_mode] else []
    let st2 := ((created.1).addMessage created.2 userMessage now).addMessage created.2 reply now
    { store := st2
      convId := created.2
      sentMessages := sys ++ [userMessage]
      responseText := reply.content ++
        ("\n\n---\n*Conversation ID: " ++ toString created.2 ++
          "*\nUse this continuation_id to continue this conversation.")
      isError := false }

/-- Input of the planner tool (src/tools/planner.ts) as destructured by
`execute`, with the JS defaults `is_step_revision = false` and
`is_branch_point = false` applied. -/
structure PlannerInput where
  step : String
  step_number : Nat
  total_steps : Nat
  next_step_required : Bool
  is_step_revision : Bool
  revises_step_number : Option Nat
  is_branch_point : Bool
  branch_id : Option String
  branch_from_step : Option Nat
  model : String
  continuation_id : Option Nat
deriving DecidableEq

/-- The planning prompt built by planner `execute` (lines 53–113),
reproduced verbatim; the four scenario branches follow the JS conditions
including number/string truthiness of the optional markers. -/
def plannerPrompt (inp : PlannerInput) : String :=
  let sn := inp.step_number
  let ts := inp.total_steps
  let base := s!"# Planning Session - Step {sn}/{ts}\n\n"
  let scenario :=
    if inp.step_number == 1 then
      "## Project/Task Overview\n\n" ++ inp.step ++ "\n\n" ++
      "### Planning Approach\nPlease provide an initial plan covering:\n- High-level goals and objectives\n- Key phases or milestones\n- Major components or tasks\n- Dependencies and constraints\n- Potential challenges\n\n"
    else if inp.is_step_revision && natTruthy inp.revises_step_number then
      "## Plan Revision\n\n" ++
      s!"Revising step {natInterp inp.revises_step_number}:\n\n" ++ inp.step ++ "\n\n" ++
      "### Revision Analysis\nProvide updated analysis addressing:\n- What changed and why\n- Impact on subsequent steps\n- Updated approach or recommendations\n\n"
    else if inp.is_branch_point && strTruthy inp.branch_id && natTruthy inp.branch_from_step then
      s!"## Alternative Approach - Branch: {strInterp inp.branch_id}\n\n" ++
      s!"Branching from step {natInterp inp.branch_from_step}:\n\n" ++ inp.step ++ "\n\n" ++
      "### Branch Exploration\nExplore this alternative by:\n- Describing the different approach\n- Comparing with the main path\n- Identifying unique benefits/risks\n- Providing recommendations\n\n"
    else
      "## Detailed Planning\n\n" ++ inp.step ++ "\n\n" ++
      s!"### Step {sn} Analysis\n" ++
      "Continue planning by:\n- Breaking down this phase\n- Identifying specific tasks\n- Noting dependencies\n- Highlighting risks or concerns\n\n"
  let closing :=
    if inp.next_step_required then
      s!"### Next Planning Phase\nPrepare for step {sn + 1} by identifying:\n" ++
      "- What needs further breakdown\n- Areas requiring more detail\n- Open questions to address\n"
    else
      "### Final Plan Summary\nProvide a comprehensive plan summary including:\n- Complete task breakdown\n- Execution sequence\n- Resource requirements\n- Success criteria\n- Risk mitigation strategies\n"
  base ++ scenario ++ closing

/-- The system message planner pushes on an empty local history. -/
def plannerSystemMessage : ChatMessage :=
  { role := Role.system
    content := "You are an expert project planner. Provide structured, actionable plans with clear breakdown of tasks, dependencies, and considerations." }

/-- The part of planner's response text before the `Continuation ID` line:
the model reply followed by the session-info block. -/
def plannerTrailerPre (inp : PlannerInput) (reply : ChatMessage) : String :=
  let sn := inp.step_number
  let ts := inp.total_steps
  reply.content ++ "\n\n---\n**Planning Session Info**\n" ++
  s!"- Step: {sn}/{ts}\n" ++
  (if inp.is_step_revision && natTruthy inp.revises_step_number then
    s!"- Revision of step: {natInterp inp.revises_step_number}\n"
  else "") ++
  (if inp.is_branch_point && strTruthy inp.branch_id then
    s!"- Branch: {strInterp inp.branch_id} (from step {natInterp inp.branch_from_step})\n"
  else "")

/-- The part of planner's response text after the `Continuation ID` line. -/
def plannerTrailerPost (inp : PlannerInput) : String :=
  "- Next step required: " ++ (if inp.next_step_required then "Yes" else "No") ++ "\n"

/-- Planner's full response text.  The JS builds it by successive `+=`;
string concatenation is associative, so the grouping chosen here (isolating
the `Continuation ID` line) yields the identical string. -/
def plannerResponseText (inp : PlannerInput) (reply : ChatMessage) (convId : Nat) : String :=
  plannerTrailerPre inp reply ++
    (("- Continuation ID: " ++ toString convId ++ "\n") ++ plannerTrailerPost inp)

/-- planner `execute` (src/tools/planner.ts).  Key aliasing fact: in the
continuation branches `messages = conversationMemory.getMessages(continuation_id)`
is the conversation's live stored array whenever the conversation exists
(`|| []` only replaces it when the lookup failed), so the later
`messages.push(...)` calls write straight into the store in addition to the
explicit `addMessage` calls. -/
def plannerExec (st : ConversationMemoryManager) (inp : PlannerInput)
    (reply : ChatMessage) (now : Nat) : ToolResult :=
  let userMessage : ChatMessage := { role := Role.user, content := plannerPrompt inp }
  let md : Metadata := [("tool", JVal.str "planner"), ("model", JVal.str inp.model)]
  match inp.continuation_id with
  | some cid =>
    match st.get cid with
    | some conv =>
      if conv.messages.isEmpty then
        -- stale token, conversation exists but is empty: a new conversation is
        -- created, while the local `messages` still aliases conversation `cid`'s
        -- stored array; the system and user pushes land there (without touching
        -- `updated_at`), unless `create`'s cleanup just evicted `cid`.
        let created := st.create now [] md
        let st2 := rawAppend created.1 cid [plannerSystemMessage, userMessage]
        let st3 := (st2.addMessage created.2 userMessage now).addMessage created.2 reply now
        { store := st3
          convId := created.2
          sentMessages := [plannerSystemMessage, userMessage]
          responseText := plannerResponseText inp reply created.2
          isError := false }
      else
        -- valid continuation: `messages` aliases the stored array, so the user
        -- message is pushed once through the alias and once via `addMessage`.
        let st2 := rawAppend st cid [userMessage]
        let st3 := (st2.addMessage cid userMessage now).addMessage cid reply now
        { store := st3
          convId := cid
          sentMessages := conv.messages ++ [userMessage, userMessage]
          responseText := plannerResponseText inp reply cid
          isError := false }
    | none =>
      -- unknown token: `getMessages` returned the fresh `[]` fallback; no alias.
      let created := st.create now [] md
      let st2 := (created.1.addMessage created.2 userMessage now).addMessage created.2 reply now
      { store := st2
        convId := created.2
        sentMessages := [plannerSystemMessage, userMessage]
        responseText := plannerResponseText inp reply created.2
        isError := false }
  | none =>
    let created := st.create now [] md
    let st2 := (created.1.addMessage created.2 userMessage now).addMessage created.2 reply now
    { store := st2
      convId := created.2
      sentMessages := [plannerSystemMessage, userMessage]
      responseText := plannerResponseText inp reply created.2
      isError := false }

/-- Input of the debug tool (src/tools/debug.ts) as destructured by
`execute`, with the JS defaults (empty arrays) applied; `images` is unused
by the logic modelled here. -/
structure DebugInput where
  step : String
  step_number : Nat
  total_steps : Nat
  next_step_required : Bool
  findings : String
  files_checked : List String
  relevant_files : List String
  relevant_context : List String
  hypothesis : Option String
  confidence : Option String
  backtrack_from_step : Option Nat
  model : String
  thinking_mode : Option String
  continuation_id : Option Nat
deriving DecidableEq

/-- The debugging prompt built by debug `execute` (lines 59–110),
reproduced verbatim. -/
def debugPrompt (inp : DebugInput) : String :=
  let sn := inp.step_number
  let ts := inp.total_steps
  s!"# Debug Investigation - Step {sn}/{ts}\n\n" ++
  (if inp.step_number == 1 then
    "## Initial Investigation\n\n" ++ inp.step ++ "\n\n"
  else
    s!"## Step {sn}\n\n" ++ inp.step ++ "\n\n") ++
  ("### Current Findings\n" ++ inp.findings ++ "\n\n") ++
  (if strTruthy inp.hypothesis then
    "### Hypothesis\n" ++ strInterp inp.hypothesis ++ "\n\n" ++
    (if strTruthy inp.confidence then
      "**Confidence Level**: " ++ strInterp inp.confidence ++ "\n\n"
    else "")
  else "") ++
  (if inp.files_checked.length > 0 then
    "### Files Examined\n" ++
      String.intercalate "\n" (inp.files_checked.map (fun f => "- " ++ f)) ++ "\n\n"
  else "") ++
  (if inp.relevant_files.length > 0 then
    "### Relevant Files\n" ++
      String.intercalate "\n" (inp.relevant_files.map (fun f => "- " ++ f)) ++ "\n\n"
  else "") ++
  (if inp.relevant_context.length > 0 then
    "### Relevant Context\n" ++
      String.intercalate "\n" (inp.relevant_context.map (fun c => "- " ++ c)) ++ "\n\n"
  else "") ++
  (if natTruthy inp.backtrack_from_step then
    s!"### Note\nBacktracking from step {natInterp inp.backtrack_from_step} to revise analysis.\n\n"
  else "") ++
  "### Next Steps\n" ++
  (if inp.next_step_required then
    s!"Continue investigation with step {sn + 1}. " ++
    "Provide guidance on:\n- What to investigate next\n- Which files or code paths to examine\n- What evidence to look for\n- How to test the current hypothesis\n"
  else
    "This is the final step. Provide:\n- Summary of root cause analysis\n- Concrete solution or fix recommendations\n- Prevention strategies for similar issues\n")

/-- The system message debug pushes when the local history is empty and a
thinking mode was supplied. -/
def debugSystemMessage (thinking_mode : Option String) : ChatMessage :=
  { role := Role.system
    content := "You are a debugging expert operating in " ++ strInterp thinking_mode ++
      " thinking mode. Provide systematic analysis with appropriate depth for this mode." }

/-- Debug's response text before the `Continuation ID` line. -/
def debugTrailerPre (inp : DebugInput) (reply : ChatMessage) : String :=
  let sn := inp.step_number
  let ts := inp.total_steps
  reply.content ++ "\n\n---\n**Debug Session Info**\n" ++ s!"- Step: {sn}/{ts}\n"

/-- Debug's response text after the `Continuation ID` line. -/
def debugTrailerPost (inp : DebugInput) : String :=
  (if strTruthy inp.hypothesis then
    "- Current Hypothesis: " ++ strInterp inp.hypothesis ++ "\n"
  else "") ++
  (if strTruthy inp.confidence then
    "- Confidence: " ++ strInterp inp.confidence ++ "\n"
  else "") ++
  "- Next step required: " ++ (if inp.next_step_required then "Yes" else "No") ++ "\n"

/-- Debug's full response text (grouping immaterial by associativity of
string concatenation). -/
def debugResponseText (inp : DebugInput) (reply : ChatMessage) (convId : Nat) : String :=
  debugTrailerPre inp reply ++
    (("- Continuation ID: " ++ toString convId ++ "\n") ++ debugTrailerPost inp)

/-- debug `execute` (src/tools/debug.ts): same conversation resolution and
aliasing behaviour as planner; the system message is pushed only when a
thinking mode was supplied. -/
def debugExec (st : ConversationMemoryManager) (inp : DebugInput)
    (reply : ChatMessage) (now : Nat) : ToolResult :=
  let userMessage : ChatMessage := { role := Role.user, content := debugPrompt inp }
  let md : Metadata :=
    [("tool", JVal.str "debug"), ("model", JVal.str inp.model),
     ("thinking_mode", jstrOpt inp.thinking_mode)]
  let sys : List ChatMessage :=
    if strTruthy inp.thinking_mode then [debugSystemMessage inp.thinking_mode] else []
  match inp.continuation_id with
  | some cid =>
    match st.get cid with
    | some conv =>
      if conv.messages.isEmpty then
        -- stale token, conversation exists but is empty: local `messages`
        -- aliases conversation `cid`'s stored array (see `plannerExec`).
        let created := st.create now [] md
        let st2 := rawAppend created.1 cid (sys ++ [userMessage])
        let st3 := (st2.addMessage created.2 userMessage now).addMessage created.2 reply now
        { store := st3
          convId := created.2
          sentMessages := sys ++ [userMessage]
          responseText := debugResponseText inp reply created.2
          isError := false }
      else
        -- valid continuation: the user message lands twice in the store.
        let st2 := rawAppend st cid [userMessage]
        let st3 := (st2.addMessage cid userMessage now).addMessage cid reply now
        { store := st3
          convId := cid
          sentMessages := conv.messages ++ [userMessage, userMessage]
          responseText := debugResponseText inp reply cid
          isError := false }
    | none =>
      let created := st.create now [] md
      let st2 := (created.1.addMessage created.2 userMessage now).addMessage created.2 reply now
      { store := st2
        convId := created.2
        sentMessages := sys ++ [userMessage]
        responseText := debugResponseText inp reply created.2
        isError := false }
  | none =>
    let created := st.create now [] md
    let st2 := (created.1.addMessage created.2 userMessage now).addMessage created.2 reply now
    { store := st2
      convId := created.2
      sentMessages := sys ++ [userMessage]
      responseText := debugResponseText inp reply created.2
      isError := false }

/-- One entry of the consensus tool's caller-supplied participant list
(`models` in src/tools/consensus.ts). -/
structure ModelConfig where
  model : String
  stance : Option String
  stance_prompt : Option String
deriving DecidableEq

/-- The default model name hard-coded in consensus `execute`. -/
def consensusDefaultModel : String := "qwen2.5:latest"

/-- The `modelToUse` selection of consensus `execute` (lines 125–133): the
hard-coded default for the initial analysis (`step_number === 1`) and for
the synthesis phase (`current_model_index >= models.length`); otherwise
`modelConfigs[current_model_index]?.model || "qwen2.5:latest"` — the model
of the participant currently being consulted, with the `||` fallback taken
only when that identifier is the empty string.  The result is passed
verbatim as the `model` field of the single `ollama.chat` request
(line 152). -/
def consensusModelToUse (step_number current_model_index : Nat)
    (modelConfigs : List ModelConfig) : String :=
  if step_number == 1 || decide (current_model_index ≥ modelConfigs.length) then
    consensusDefaultModel
  else
    match modelConfigs.get? current_model_index with
    | some config => if config.model == "" then consensusDefaultModel else config.model
    | none => consensusDefaultModel

/-- A sequence of `addMessage(id, m)` calls, each at its own clock value. -/
def appendAll (st : ConversationMemoryManager) (id : Nat)
    (pairs : List (ChatMessage × Nat)) : ConversationMemoryManager :=
  pairs.foldl (fun s p => s.addMessage id p.1 p.2) st

/-- A sequence of `create(initialMessages, metadata)` calls against the
process-wide store, each with its clock value. -/
def runCreates (calls : List (Nat × List ChatMessage × Metadata)) :
    ConversationMemoryManager :=
  calls.foldl (fun s c => (s.create c.1 c.2.1 c.2.2).1) conversationMemory

/-- Invariant of every store state reachable by `create` calls up to clock
`t`: ids are strictly increasing along insertion order and below the
allocation counter, `updated_at` is non-decreasing along insertion order
and bounded by `t`, the thresholds hold their initializer values, and the
conversation count is within the capacity bound. -/
def WF (st : ConversationMemoryManager) (t : Nat) : Prop :=
  st.conversations.Pairwise (fun a b => a.1 < b.1) ∧
  (∀ p ∈ st.conversations, p.1 < st.nextId) ∧
  st.conversations.Pairwise (fun a b => a.2.updated_at ≤ b.2.updated_at) ∧
  (∀ p ∈ st.conversations, p.2.updated_at ≤ t) ∧
  st.maxConversations = 100 ∧
  st.maxAge = 86400000 ∧
  st.conversations.length ≤ 100

example : (conversationMemory.create 5 [] []).2 = 0 := by decide

example :
    ((conversationMemory.create 5 [] []).1.create 7 [] []).1.size = 2 := by decide

example :
    ((conversationMemory.create 5 [] []).1.create 86400006 [] []).1.size = 1 := by
  decide

/-! ### Helper lemmas -/

theorem map_eq_self_of {α : Type} {l : List α} {f : α → α}
    (h : ∀ a ∈ l, f a = a) : l.map f = l := by
  induction l with
  | nil => rfl
  | cons a t ih =>
    simp only [List.map_cons, h a (List.mem_cons_self a t),
      ih (fun x hx => h x (List.mem_cons_of_mem a hx))]

theorem find?_update_list (l : List (Nat × ConversationMemory)) (id : Nat)
    (f : Nat × ConversationMemory → ConversationMemory) :
    ((l.map fun p => if p.1 == id then (p.1, f p) else p).find?
        (fun p => p.1 == id)) =
      (l.find? (fun p => p.1 == id)).map (fun p => (p.1, f p)) := by
  induction l with
  | nil => rfl
  | cons a t ih =>
    rw [List.map_cons]
    by_cases h : (a.1 == id) = true
    · rw [if_pos h]
      simp only [List.find?_cons, h, cond_true, Option.map_some']
    · rw [if_neg h]
      have h' : (a.1 == id) = false := by simpa using h
      simp only [List.find?_cons, h', cond_false, ih]

theorem get_addMessage_self (st : ConversationMemoryManager) (id : Nat)
    (conv : ConversationMemory) (m : ChatMessage) (now : Nat)
    (h : st.get id = some conv) :
    (st.addMessage id m now).get id =
      some { conv with messages := conv.messages ++ [m], updated_at := now } := by
  unfold ConversationMemoryManager.get at h ⊢
  unfold ConversationMemoryManager.addMessage
  simp only
  rw [find?_update_list st.conversations id
    (fun p => { p.2 with messages := p.2.messages ++ [m], updated_at := now })]
  obtain ⟨p, hp, hpc⟩ := Option.map_eq_some'.mp h
  rw [hp]
  simp only [Option.map_some']
  rw [hpc]

theorem get_updateMetadata_self (st : ConversationMemoryManager) (id : Nat)
    (conv : ConversationMemory) (md : Metadata) (now : Nat)
    (h : st.get id = some conv) :
    (st.updateMetadata id md now).get id =
      some { conv with metadata := objMerge conv.metadata md, updated_at := now } := by
  unfold ConversationMemoryManager.get at h ⊢
  unfold ConversationMemoryManager.updateMetadata
  simp only
  rw [find?_update_list st.conversations id
    (fun p => { p.2 with metadata := objMerge p.2.metadata md, updated_at := now })]
  obtain ⟨p, hp, hpc⟩ := Option.map_eq_some'.mp h
  rw [hp]
  simp only [Option.map_some']
  rw [hpc]

/-! ### Claim theorems -/

/-- Claim C6: for an id that is not tracked by the store, no operation
misbehaves: `get` returns `none`, `getMessages` returns the empty list, and
`addMessage`, `updateMetadata` and `delete` leave the store state entirely
unchanged. -/
theorem claim_C6_missing_id_noop (st : ConversationMemoryManager) (id : Nat)
    (m : ChatMessage) (md : Metadata) (now : Nat)
    (habs : ∀ p ∈ st.conversations, p.1 ≠ id) :
    st.get id = none ∧
    st.getMessages id = [] ∧
    st.addMessage id m now = st ∧
    st.updateMetadata id md now = st ∧
    st.deleteConv id = st := by
  have hget : st.get id = none := by
    unfold ConversationMemoryManager.get
    rw [List.find?_eq_none.mpr (fun x hx => by simpa using habs x hx)]
    rfl
  refine ⟨hget, ?_, ?_, ?_, ?_⟩
  · unfold ConversationMemoryManager.getMessages
    rw [hget]
  · unfold ConversationMemoryManager.addMessage
    rw [map_eq_self_of (fun p hp => by simp [habs p hp])]
  · unfold ConversationMemoryManager.updateMetadata
    rw [map_eq_self_of (fun p hp => by simp [habs p hp])]
  · unfold ConversationMemoryManager.deleteConv
    rw [List.filter_eq_self.mpr (fun p hp => by simp [habs p hp])]

/-- Claim C6 witness: instantiation at a store tracking id 0 and the
missing id 7. -/
theorem claim_C6_missing_id_noop_witness :
    (conversationMemory.create 3 [] []).1.get 7 = none ∧
    (conversationMemory.create 3 [] []).1.getMessages 7 = [] ∧
    (conversationMemory.create 3 [] []).1.addMessage 7 ⟨Role.user, "hi"⟩ 4 =
      (conversationMemory.create 3 [] []).1 ∧
    (conversationMemory.create 3 [] []).1.updateMetadata 7 [] 4 =
      (conversationMemory.create 3 [] []).1 ∧
    (conversationMemory.create 3 [] []).1.deleteConv 7 =
      (conversationMemory.create 3 [] []).1 :=
  claim_C6_missing_id_noop (conversationMemory.create 3 [] []).1 7
    ⟨Role.user, "hi"⟩ [] 4 (by decide)

/-- Claim C5: a conversation whose `updated_at` is older than the retention
window at the moment the next `create` runs is gone afterwards: the
age-based pass of the cleanup triggered by that `create` removes it, so
`get` returns `none`. -/
theorem claim_C5_age_eviction (st : ConversationMemoryManager) (id now : Nat)
    (msgs : List ChatMessage) (md : Metadata)
    (hstale : ∀ p ∈ st.conversations, p.1 = id → now - p.2.updated_at > st.maxAge)
    (hfresh : st.nextId ≠ id) :
    ((st.create now msgs md).1).get id = none := by
  unfold ConversationMemoryManager.get
  rw [List.find?_eq_none.mpr ?_]
  · rfl
  intro x hx
  simp only [ConversationMemoryManager.create, ConversationMemoryManager.cleanup] at hx
  have hmem :
      x ∈ (st.conversations ++
          [(st.nextId, ConversationMemoryManager.mkConv st.nextId msgs md now)]).filter
        (fun p => !(decide (now - p.2.updated_at > st.maxAge))) := by
    by_cases hc :
        ((st.conversations ++
            [(st.nextId, ConversationMemoryManager.mkConv st.nextId msgs md now)]).filter
          (fun p => !(decide (now - p.2.updated_at > st.maxAge)))).length >
          st.maxConversations
    · simp only [if_pos hc] at hx
      exact (List.mem_filter.mp hx).1
    · simp only [if_neg hc] at hx
      exact hx
  have hkeep := (List.mem_filter.mp hmem).2
  have hx2 := (List.mem_filter.mp hmem).1
  simp only [Bool.not_eq_true', decide_eq_false_iff_not] at hkeep
  intro hxid
  have hxid' : x.1 = id := by simpa using hxid
  rcases List.mem_append.mp hx2 with hold | hnew
  · exact hkeep (hstale x hold hxid')
  · have : x.1 = st.nextId := by
      simp only [List.mem_singleton] at hnew
      rw [hnew]
    exact hfresh (by rw [← this, hxid'])

/-- Claim C5 witness: a conversation created at time 0 is absent after a
`create` at time 86400001 (one millisecond past the 24-hour window). -/
theorem claim_C5_age_eviction_witness :
    (((conversationMemory.create 0 [] []).1.create 86400001 [] []).1).get 0 = none :=
  claim_C5_age_eviction (conversationMemory.create 0 [] []).1 0 86400001 [] []
    (by decide) (by decide)

theorem spreadOverride_fst (b : Metadata) (p : String × JVal) :
    (spreadOverride b p).1 = p.1 := by
  unfold spreadOverride
  cases b.find? (fun q => q.1 == p.1) <;> rfl

theorem find?_key_map_spread (a b : Metadata) (k : String) :
    ((a.map (spreadOverride b)).find? (fun p => p.1 == k)) =
      (a.find? (fun p => p.1 == k)).map (spreadOverride b) := by
  induction a with
  | nil => rfl
  | cons p t ih =>
    rw [List.map_cons]
    by_cases h : (p.1 == k) = true
    · have h2 : ((spreadOverride b p).1 == k) = true := by
        rw [spreadOverride_fst]; exact h
      simp only [List.find?_cons, h, h2, cond_true, Option.map_some']
    · have h' : (p.1 == k) = false := by simpa using h
      have h2 : ((spreadOverride b p).1 == k) = false := by
        rw [spreadOverride_fst]; exact h'
      simp only [List.find?_cons, h', h2, cond_false, ih]

theorem find?_key_filter_spread (a b : Metadata) (k : String)
    (ha : a.find? (fun p => p.1 == k) = none) :
    ((b.filter (fun q => !(a.any (fun p => p.1 == q.1)))).find?
        (fun p => p.1 == k)) =
      b.find? (fun p => p.1 == k) := by
  have hall := List.find?_eq_none.mp ha
  induction b with
  | nil => rfl
  | cons q t ih =>
    by_cases hkeep : (a.any (fun p => p.1 == q.1)) = true
    · have hq' : (q.1 == k) = false := by
        rcases List.any_eq_true.mp hkeep with ⟨x, hx, hxq⟩
        have hx1 : x.1 = q.1 := by simpa using hxq
        by_contra hcon
        have hqk : q.1 = k := by
          cases hcase : (q.1 == k) with
          | true => simpa using hcase
          | false => simp [hcase] at hcon
        exact hall x hx (by simp [hx1, hqk])
      rw [List.filter_cons]
      simp only [hkeep, Bool.not_true]
      rw [if_neg (by simp)]
      rw [ih]
      simp only [List.find?_cons, hq', cond_false]
    · have hkeep' : (a.any (fun p => p.1 == q.1)) = false := by
        cases hx : (a.any (fun p => p.1 == q.1)) with
        | true => exact absurd hx hkeep
        | false => rfl
      rw [List.filter_cons]
      simp only [hkeep', Bool.not_false]
      rw [if_pos trivial]
      cases hq : (q.1 == k) with
      | true => simp only [List.find?_cons, hq, cond_true]
      | false => simp only [List.find?_cons, hq, cond_false, ih]

theorem objGet_objMerge (a b : Metadata) (k : String) :
    objGet (objMerge a b) k = (objGet b k).or (objGet a k) := by
  unfold objGet objMerge
  rw [List.find?_append, find?_key_map_spread]
  cases ha : a.find? (fun p => p.1 == k) with
  | none =>
    rw [find?_key_filter_spread a b k ha]
    simp only [Option.map_none', Option.none_or]
    cases b.find? (fun p => p.1 == k) <;> simp
  | some p =>
    have hpk : p.1 = k := by
      have := List.find?_some ha
      simpa using this
    simp only [Option.map_some', Option.or_some]
    unfold spreadOverride
    rw [hpk]
    cases hb : b.find? (fun q => q.1 == k) with
    | none => simp
    | some q => simp

/-- Claim C7: `updateMetadata` shallow-merges the partial mapping into the
existing metadata and refreshes `updated_at`: every key bound by the
partial mapping takes its new value, every other key keeps its old value;
in particular creating with `{a: 1}` then applying `{b: 2}` yields
`{a: 1, b: 2}`, and then applying `{a: 9}` yields `{a: 9, b: 2}`. -/
theorem claim_C7_metadata_merge (st : ConversationMemoryManager) (id : Nat)
    (conv : ConversationMemory) (partialMd : Metadata) (now : Nat)
    (h : st.get id = some conv) :
    ((st.updateMetadata id partialMd now).get id =
      some { conv with
              metadata := objMerge conv.metadata partialMd,
              updated_at := now }) ∧
    (∀ k, objGet (objMerge conv.metadata partialMd) k =
      ((objGet partialMd k).or (objGet conv.metadata k))) ∧
    ((let s0 := (conversationMemory.create 0 [] [("a", JVal.num 1)]).1
      let s1 := s0.updateMetadata 0 [("b", JVal.num 2)] 1
      let s2 := s1.updateMetadata 0 [("a", JVal.num 9)] 2
      ((s1.get 0).map fun c => (objGet c.metadata "a", objGet c.metadata "b")) =
          some (some (JVal.num 1), some (JVal.num 2)) ∧
        ((s2.get 0).map fun c => (objGet c.metadata "a", objGet c.metadata "b")) =
          some (some (JVal.num 9), some (JVal.num 2)))) := by
  refine ⟨get_updateMetadata_self st id conv partialMd now h,
    fun k => objGet_objMerge conv.metadata partialMd k, by decide⟩

/-- Claim C7 witness: instantiation at a store holding conversation 0
created with metadata `{a: 1}`, merging `{b: 2}`. -/
theorem claim_C7_metadata_merge_witness :
    ((conversationMemory.create 0 [] [("a", JVal.num 1)]).1.updateMetadata 0
        [("b", JVal.num 2)] 1).get 0 =
      some { (ConversationMemoryManager.mkConv 0 [] [("a", JVal.num 1)] 0) with
              metadata := objMerge
                (ConversationMemoryManager.mkConv 0 [] [("a", JVal.num 1)] 0).metadata
                [("b", JVal.num 2)],
              updated_at := 1 } :=
  And.left (claim_C7_metadata_merge
    (conversationMemory.create 0 [] [("a", JVal.num 1)]).1 0
    (ConversationMemoryManager.mkConv 0 [] [("a", JVal.num 1)] 0)
    [("b", JVal.num 2)] 1 (by decide))

theorem getMessages_appendAll (pairs : List (ChatMessage × Nat)) :
    ∀ (st : ConversationMemoryManager) (id : Nat) (conv : ConversationMemory),
    st.get id = some conv →
    (appendAll st id pairs).getMessages id =
      conv.messages ++ pairs.map (fun p => p.1) := by
  induction pairs with
  | nil =>
    intro st id conv h
    unfold appendAll
    simp [ConversationMemoryManager.getMessages, h]
  | cons p rest ih =>
    intro st id conv h
    have h2 := get_addMessage_self st id conv p.1 p.2 h
    unfold appendAll at ih ⊢
    rw [List.foldl_cons, ih _ _ _ h2]
    simp

theorem get_create_fresh (st : ConversationMemoryManager) (now : Nat)
    (msgs : List ChatMessage) (md : Metadata)
    (hfresh : ∀ p ∈ st.conversations, p.1 < st.nextId)
    (hbound : ∀ p ∈ st.conversations, p.2.updated_at ≤ now)
    (hsize : st.size ≤ st.maxConversations)
    (hmaxc : st.maxConversations = 100) :
    ((st.create now msgs md).1).get (st.create now msgs md).2 =
      some (ConversationMemoryManager.mkConv st.nextId msgs md now) := by
  have hsnd : (st.create now msgs md).2 = st.nextId := rfl
  rw [hsnd]
  set newE : Nat × ConversationMemory :=
    (st.nextId, ConversationMemoryManager.mkConv st.nextId msgs md now) with hnewE
  have hnewUpd : newE.2.updated_at = now := rfl
  have hnewKey : newE.1 = st.nextId := rfl
  set afterSet : List (Nat × ConversationMemory) := st.conversations ++ [newE] with hAS
  have hASlen : afterSet.length = st.conversations.length + 1 := by
    rw [hAS]; simp
  set agePred : Nat × ConversationMemory → Bool :=
    (fun p => !(decide (now - p.2.updated_at > st.maxAge))) with hagePred
  set afterAge : List (Nat × ConversationMemory) := afterSet.filter agePred with hAA
  have hAAsub : List.Sublist afterAge afterSet := by
    rw [hAA]; exact List.filter_sublist _
  have hAAlen : afterAge.length ≤ afterSet.length := hAAsub.length_le
  have hkeepNew : agePred newE = true := by
    rw [hagePred, hnewE]
    simp [ConversationMemoryManager.mkConv]
  have hAfilter : afterAge = st.conversations.filter agePred ++ [newE] := by
    rw [hAA, hAS, List.filter_append, List.filter_cons]
    simp only [hkeepNew, List.filter_nil]
    rw [if_pos trivial]
  set le : (Nat × ConversationMemory) → (Nat × ConversationMemory) → Bool :=
    (fun a b => decide (a.2.updated_at ≤ b.2.updated_at)) with hle
  have hcreate1 : (st.create now msgs md).1 =
      if afterAge.length > 100 then
        { st with
          conversations := afterAge.filter
            (fun p => !((afterSet.mergeSort le).take (afterAge.length - 100)).any
              (fun q => q.1 == p.1)),
          nextId := st.nextId + 1 }
      else
        { st with conversations := afterAge, nextId := st.nextId + 1 } := by
    simp only [ConversationMemoryManager.create, ConversationMemoryManager.cleanup, hmaxc]
  have hgetRec : ∀ (Y : List (Nat × ConversationMemory)) (n : Nat),
      ({ st with conversations := Y, nextId := n } :
        ConversationMemoryManager).get st.nextId =
        (Y.find? (fun p => p.1 == st.nextId)).map (fun p => p.2) :=
    fun Y n => rfl
  have hfind : ∀ (X : List (Nat × ConversationMemory)),
      (∀ p ∈ X, p.1 < st.nextId) →
      (((X ++ [newE]).find? (fun p => p.1 == st.nextId)).map (fun p => p.2)) =
        some (ConversationMemoryManager.mkConv st.nextId msgs md now) := by
    intro X hX
    rw [List.find?_append]
    rw [List.find?_eq_none.mpr (fun x hx => by
      simp only [beq_iff_eq]
      have := hX x hx
      omega)]
    rw [Option.none_or]
    have hpos : (newE.1 == st.nextId) = true := by
      rw [hnewKey]
      simp
    simp only [List.find?_cons, hpos, cond_true, Option.map_some']
  rw [hcreate1]
  by_cases hcase : afterAge.length > 100
  · -- the triggering create found the store at its capacity; the count pass
    -- fires, but the entry it removes is never the just-created conversation
    rw [if_pos hcase]
    have hsz : st.conversations.length ≤ 100 := by
      unfold ConversationMemoryManager.size at hsize
      omega
    have h101 : afterAge.length = 101 := by omega
    have hconvLen : st.conversations.length = 100 := by omega
    cases hs : afterSet.mergeSort le with
    | nil =>
      have hml : (afterSet.mergeSort le).length = afterSet.length :=
        List.length_mergeSort afterSet
      rw [hs] at hml
      simp at hml
      omega
    | cons s0 stail =>
      have hs0mem : s0 ∈ afterSet := by
        have h1 : s0 ∈ afterSet.mergeSort le := by
          rw [hs]
          exact List.mem_cons_self _ _
        exact List.mem_mergeSort.mp h1
      have hs0key : s0.1 ≠ st.nextId := by
        have hs0mem2 := hs0mem
        rw [hAS] at hs0mem2
        rcases List.mem_append.mp hs0mem2 with hOld | hNew
        · have := hfresh s0 hOld
          omega
        · -- if the head of the stable sort were the new entry (timestamp
          -- `now`, the maximum), every timestamp would equal `now`, the
          -- snapshot would already be sorted, and the stable sort would be
          -- the identity — whose head is the oldest stored conversation,
          -- not the entry appended last.
          simp only [List.mem_singleton] at hNew
          exfalso
          have htrans : ∀ (a b c : Nat × ConversationMemory),
              le a b → le b c → le a c := by
            intro a b c hab hbc
            simp only [hle, decide_eq_true_eq] at hab hbc ⊢
            omega
          have htotal : ∀ (a b : Nat × ConversationMemory), le a b || le b a := by
            intro a b
            simp only [hle, Bool.or_eq_true, decide_eq_true_eq]
            omega
          have hpair := List.sorted_mergeSort htrans htotal afterSet
          have hpairCons := hs ▸ hpair
          have hallNow : ∀ p ∈ afterSet, p.2.updated_at = now := by
            intro p hp
            have hub : p.2.updated_at ≤ now := by
              have hp2 := hp
              rw [hAS] at hp2
              rcases List.mem_append.mp hp2 with h1 | h2
              · exact hbound p h1
              · simp only [List.mem_singleton] at h2
                exact Nat.le_of_eq (by rw [h2, hnewUpd])
            have hlb : now ≤ p.2.updated_at := by
              have hpm : p ∈ afterSet.mergeSort le := List.mem_mergeSort.mpr hp
              rw [hs] at hpm
              rcases List.mem_cons.mp hpm with h1 | h2
              · exact Nat.le_of_eq (by rw [h1, hNew, hnewUpd])
              · have hple := (List.pairwise_cons.mp hpairCons).1 p h2
                simp only [hNew, hle, decide_eq_true_eq] at hple
                rw [hnewUpd] at hple
                exact hple
            omega
          have hsorted2 : afterSet.Pairwise (fun a b => le a b = true) := by
            apply List.pairwise_of_forall_mem_list
            intro a ha b hb
            simp only [hle, decide_eq_true_eq]
            rw [hallNow a ha, hallNow b hb]
          have hid : afterSet.mergeSort le = afterSet :=
            List.mergeSort_of_sorted hsorted2
          rw [hid] at hs
          cases hc : st.conversations with
          | nil =>
            rw [hc] at hconvLen
            simp at hconvLen
          | cons c0 ctail =>
            rw [hAS, hc, List.cons_append] at hs
            injection hs with hh ht
            have hkey : c0.1 < st.nextId :=
              hfresh c0 (by rw [hc]; exact List.mem_cons_self _ _)
            rw [hh, hNew, hnewKey] at hkey
            omega
      have htake : (s0 :: stail).take (afterAge.length - 100) = [s0] := by
        rw [h101]
        rfl
      rw [hgetRec, htake, hAfilter, List.filter_append, List.filter_cons]
      have hnot : ([s0].any (fun q => q.1 == newE.1)) = false := by
        simp [hnewKey, hs0key]
      simp only [hnot, Bool.not_false, List.filter_nil]
      rw [if_pos trivial]
      exact hfind _ (fun p hp =>
        hfresh p (List.mem_of_mem_filter (List.mem_of_mem_filter hp)))
  · rw [if_neg hcase, hgetRec, hAfilter]
    exact hfind _ (fun p hp => hfresh p (List.mem_of_mem_filter hp))

/-- Claim C8: append/read round trip.  A conversation created with no
initial messages, followed by any finite sequence of `addMessage` calls
appending the messages of `M` in order, yields `getMessages` equal to
exactly `M` in the same order.  The hypotheses hold in every reachable
state, a full store included: every tracked id is below the allocation
counter, no stored `updated_at` lies in the future of the creating call's
clock (`Date.now()` is monotone), the count is within the capacity bound
(`cleanup` re-establishes this bound on every `create` and no other
operation adds entries), and `maxConversations` holds its initializer 100
(nothing ever assigns it).  In particular, when the store is full the
triggering create's count pass evicts the oldest conversation, never the
one just created. -/
theorem claim_C8_append_roundtrip (st : ConversationMemoryManager) (now : Nat)
    (md : Metadata) (pairs : List (ChatMessage × Nat))
    (hfresh : ∀ p ∈ st.conversations, p.1 < st.nextId)
    (hbound : ∀ p ∈ st.conversations, p.2.updated_at ≤ now)
    (hsize : st.size ≤ st.maxConversations)
    (hmaxc : st.maxConversations = 100) :
    (appendAll (st.create now [] md).1 (st.create now [] md).2 pairs).getMessages
        (st.create now [] md).2 = pairs.map (fun p => p.1) := by
  have hg := get_create_fresh st now [] md hfresh hbound hsize hmaxc
  have h := getMessages_appendAll pairs (st.create now [] md).1
    (st.create now [] md).2 (ConversationMemoryManager.mkConv st.nextId [] md now) hg
  simpa [ConversationMemoryManager.mkConv] using h

set_option maxRecDepth 40000 in
/-- Claim C8 witness: two messages appended to a conversation created on a
full store (100 tracked conversations, the capacity bound) read back in
order. -/
theorem claim_C8_append_roundtrip_witness :
    (appendAll ((runCreates ((List.range 100).map
          (fun t => (t, ([] : List ChatMessage), ([] : Metadata))))).create 100 [] []).1
        ((runCreates ((List.range 100).map
          (fun t => (t, ([] : List ChatMessage), ([] : Metadata))))).create 100 [] []).2
        [(⟨Role.user, "u1"⟩, 101), (⟨Role.assistant, "a1"⟩, 102)]).getMessages
        ((runCreates ((List.range 100).map
          (fun t => (t, ([] : List ChatMessage), ([] : Metadata))))).create 100 [] []).2 =
      [⟨Role.user, "u1"⟩, ⟨Role.assistant, "a1"⟩] :=
  claim_C8_append_roundtrip
    (runCreates ((List.range 100).map
      (fun t => (t, ([] : List ChatMessage), ([] : Metadata))))) 100 []
    [(⟨Role.user, "u1"⟩, 101), (⟨Role.assistant, "a1"⟩, 102)]
    (by decide) (by decide) (by decide) (by decide)

/-- Claim C9: in the consensus tool, for `step_number` greater than 1 and
`current_model_index` strictly below the participant count, the single
outbound chat request targets the model identifier of the participant at
`current_model_index` (which, being a model identifier, is non-empty), not
the hard-coded default; in particular with two participants, step 2 and
index 0 the request uses participant 0's model. -/
theorem claim_C9_consensus_model (step_number current_model_index : Nat)
    (modelConfigs : List ModelConfig) (cfg : ModelConfig)
    (h1 : 1 < step_number)
    (h2 : modelConfigs.get? current_model_index = some cfg)
    (h3 : cfg.model ≠ "") :
    consensusModelToUse step_number current_model_index modelConfigs = cfg.model ∧
    consensusModelToUse 2 0
      [⟨"llama3.1:8b", some "for", none⟩, ⟨"mistral:7b", some "against", none⟩] =
      "llama3.1:8b" ∧
    "llama3.1:8b" ≠ consensusDefaultModel := by
  refine ⟨?_, by decide, by decide⟩
  unfold consensusModelToUse
  have hlt : current_model_index < modelConfigs.length := by
    obtain ⟨h, -⟩ := List.get?_eq_some.mp h2
    exact h
  have hne : (step_number == 1) = false := by
    simp only [beq_eq_false_iff_ne]
    omega
  have hge : (decide (current_model_index ≥ modelConfigs.length)) = false := by
    simp only [decide_eq_false_iff_not]
    omega
  rw [hne, hge]
  simp only [Bool.or_self, if_false]
  rw [h2]
  simp only
  have hm : (cfg.model == "") = false := by
    simpa using h3
  rw [hm]
  rfl

/-- Claim C9 witness: concrete two-participant instantiation. -/
theorem claim_C9_consensus_model_witness :
    consensusModelToUse 2 0
      [⟨"llama3.1:8b", some "for", none⟩, ⟨"mistral:7b", some "against", none⟩] =
      "llama3.1:8b" :=
  (claim_C9_consensus_model 2 0
    [⟨"llama3.1:8b", some "for", none⟩, ⟨"mistral:7b", some "against", none⟩]
    ⟨"llama3.1:8b", some "for", none⟩ (by decide) (by decide) (by decide)).1

/-- Claim C10: the chat tool appends the `Conversation ID` trailer only
when no `continuation_id` was supplied.  Whenever a `continuation_id` is
supplied — even one that resolves to nothing, so that a fresh conversation
is silently created — the returned text is exactly the backend reply, which
does not depend on the replacement conversation's id, so the caller is
never told that id. -/
theorem claim_C10_chat_trailer (st : ConversationMemoryManager) (inp : ChatInput)
    (reply : ChatMessage) (now : Nat) :
    (∀ cid, inp.continuation_id = some cid →
      (chatExec st inp reply now).responseText = reply.content) ∧
    (inp.continuation_id = none →
      (chatExec st inp reply now).responseText =
        reply.content ++
          ("\n\n---\n*Conversation ID: " ++
            toString (chatExec st inp reply now).convId ++
            "*\nUse this continuation_id to continue this conversation.")) := by
  constructor
  · intro cid hc
    unfold chatExec
    rw [hc]
    by_cases h : (st.getMessages cid).length > 0
    · simp [h]
    · simp [h]
  · intro hc
    simp only [chatExec, hc]

/-- Claim C10 witness: a stale continuation id yields a bare reply with no
trailer, and the no-continuation call yields the trailer. -/
theorem claim_C10_chat_trailer_witness :
    (chatExec conversationMemory ⟨"hello", [], "m", none, some 7⟩
      ⟨Role.assistant, "pong"⟩ 3).responseText = "pong" :=
  (claim_C10_chat_trailer conversationMemory ⟨"hello", [], "m", none, some 7⟩
    ⟨Role.assistant, "pong"⟩ 3).1 7 rfl

/-- Claim C2 (refuted by the code): reusing an existing non-empty
conversation through a valid continuation id is documented to append
exactly the composed user message and the backend reply.  In
src/tools/planner.ts the local `messages` array returned by `getMessages`
aliases the stored array, so `messages.push(userMessage)` plus
`conversationMemory.addMessage(convId, userMessage)` store the user
message twice: a conversation holding one prior message ends up with
`[m0, user, user, reply]`, not `[m0, user, reply]`. -/
theorem claim_C2_duplicate_user_message :
    (plannerExec (conversationMemory.create 10 [⟨Role.user, "m0"⟩] []).1
        ⟨"s", 2, 3, true, false, none, false, none, none, "m", some 0⟩
        ⟨Role.assistant, "r"⟩ 20).store.getMessages 0 =
      [⟨Role.user, "m0"⟩,
        ⟨Role.user, plannerPrompt ⟨"s", 2, 3, true, false, none, false, none, none, "m", some 0⟩⟩,
        ⟨Role.user, plannerPrompt ⟨"s", 2, 3, true, false, none, false, none, none, "m", some 0⟩⟩,
        ⟨Role.assistant, "r"⟩] ∧
    (plannerExec (conversationMemory.create 10 [⟨Role.user, "m0"⟩] []).1
        ⟨"s", 2, 3, true, false, none, false, none, none, "m", some 0⟩
        ⟨Role.assistant, "r"⟩ 20).store.getMessages 0 ≠
      [⟨Role.user, "m0"⟩,
        ⟨Role.user, plannerPrompt ⟨"s", 2, 3, true, false, none, false, none, none, "m", some 0⟩⟩,
        ⟨Role.assistant, "r"⟩] := by
  have h1 :
      (plannerExec (conversationMemory.create 10 [⟨Role.user, "m0"⟩] []).1
          ⟨"s", 2, 3, true, false, none, false, none, none, "m", some 0⟩
          ⟨Role.assistant, "r"⟩ 20).store.getMessages 0 =
        [⟨Role.user, "m0"⟩,
          ⟨Role.user, plannerPrompt ⟨"s", 2, 3, true, false, none, false, none, none, "m", some 0⟩⟩,
          ⟨Role.user, plannerPrompt ⟨"s", 2, 3, true, false, none, false, none, none, "m", some 0⟩⟩,
          ⟨Role.assistant, "r"⟩] := rfl
  refine ⟨h1, fun h => ?_⟩
  rw [h1] at h
  have hlen := congrArg List.length h
  simp at hlen

set_option maxRecDepth 4000 in
/-- Claim C3 (refuted by the code): `loadConfig` does parse
`MAX_CONVERSATIONS` into `config.maxConversations`, but the
`ConversationMemoryManager` singleton used by every tool keeps the field
initializer `100` and never reads the config, so a configured capacity of
50 is not enforced: after 51 `create` calls all 51 conversations are still
tracked. -/
theorem claim_C3_config_ignored :
    (loadConfig
        (fun k => if k = "MAX_CONVERSATIONS" then some "50" else none)).maxConversations =
      some 50 ∧
    conversationMemory.maxConversations = 100 ∧
    (runCreates ((List.range 51).map
        (fun t => (t, ([] : List ChatMessage), ([] : Metadata))))).size = 51 := by
  refine ⟨by decide, rfl, by decide⟩

theorem get_nextId_none (st : ConversationMemoryManager)
    (hfresh : ∀ p ∈ st.conversations, p.1 < st.nextId) :
    st.get st.nextId = none := by
  unfold ConversationMemoryManager.get
  rw [List.find?_eq_none.mpr ?_]
  · rfl
  intro x hx
  have := hfresh x hx
  simp only [beq_iff_eq]
  omega

/-- Claim C4: for planner and debug invocations, conversation resolution
and the response trailer behave as specified: with no continuation token,
or a token resolving to no conversation or an empty one, a brand-new
conversation id (the allocator's next id, not previously tracked) is used
and no error is surfaced; a token resolving to a non-empty conversation is
reused; and in every case the response text carries the
`- Continuation ID: <id>` trailer line for the resolved id. -/
theorem claim_C4_resolution_and_trailer (st : ConversationMemoryManager)
    (pinp : PlannerInput) (dinp : DebugInput) (reply : ChatMessage) (now : Nat)
    (hfresh : ∀ p ∈ st.conversations, p.1 < st.nextId) :
    ((pinp.continuation_id = none →
        (plannerExec st pinp reply now).convId = st.nextId ∧
          st.get st.nextId = none) ∧
      (∀ cid, pinp.continuation_id = some cid → st.getMessages cid = [] →
        (plannerExec st pinp reply now).convId = st.nextId ∧
          st.get st.nextId = none) ∧
      (∀ cid conv, pinp.continuation_id = some cid → st.get cid = some conv →
        conv.messages ≠ [] → (plannerExec st pinp reply now).convId = cid) ∧
      (∃ pre post, (plannerExec st pinp reply now).responseText =
        pre ++ (("- Continuation ID: " ++
          toString (plannerExec st pinp reply now).convId ++ "\n") ++ post)) ∧
      (plannerExec st pinp reply now).isError = false) ∧
    ((dinp.continuation_id = none →
        (debugExec st dinp reply now).convId = st.nextId ∧
          st.get st.nextId = none) ∧
      (∀ cid, dinp.continuation_id = some cid → st.getMessages cid = [] →
        (debugExec st dinp reply now).convId = st.nextId ∧
          st.get st.nextId = none) ∧
      (∀ cid conv, dinp.continuation_id = some cid → st.get cid = some conv →
        conv.messages ≠ [] → (debugExec st dinp reply now).convId = cid) ∧
      (∃ pre post, (debugExec st dinp reply now).responseText =
        pre ++ (("- Continuation ID: " ++
          toString (debugExec st dinp reply now).convId ++ "\n") ++ post)) ∧
      (debugExec st dinp reply now).isError = false) := by
  have hnone := get_nextId_none st hfresh
  constructor
  · refine ⟨?_, ?_, ?_, ?_, ?_⟩
    · intro hc
      simp only [plannerExec, hc]
      exact ⟨rfl, hnone⟩
    · intro cid hc hemp
      simp only [plannerExec, hc]
      cases hg : st.get cid with
      | none => exact ⟨rfl, hnone⟩
      | some conv =>
        have hm : conv.messages = [] := by
          unfold ConversationMemoryManager.getMessages at hemp
          rw [hg] at hemp
          exact hemp
        simp only [hm, List.isEmpty_nil]
        rw [if_pos (by trivial)]
        exact ⟨rfl, hnone⟩
    · intro cid conv hc hg hne
      simp only [plannerExec, hc, hg]
      have hm : conv.messages.isEmpty = false := by
        cases hmm : conv.messages with
        | nil => exact absurd hmm hne
        | cons a t => rfl
      simp only [hm]
      rw [if_neg (by simp)]
    · refine ⟨plannerTrailerPre pinp reply, plannerTrailerPost pinp, ?_⟩
      cases hc : pinp.continuation_id with
      | none => simp only [plannerExec, hc]; rfl
      | some cid =>
        cases hg : st.get cid with
        | none => simp only [plannerExec, hc, hg]; rfl
        | some conv =>
          cases hmm : conv.messages.isEmpty with
          | true =>
            simp only [plannerExec, hc, hg, hmm]
            rw [if_pos (by trivial)]
            rfl
          | false =>
            simp only [plannerExec, hc, hg, hmm]
            rw [if_neg (by simp)]
            rfl
    · cases hc : pinp.continuation_id with
      | none => simp only [plannerExec, hc]
      | some cid =>
        cases hg : st.get cid with
        | none => simp only [plannerExec, hc, hg]
        | some conv =>
          cases hmm : conv.messages.isEmpty with
          | true =>
            simp only [plannerExec, hc, hg, hmm]
            rw [if_pos (by trivial)]
          | false =>
            simp only [plannerExec, hc, hg, hmm]
            rw [if_neg (by simp)]
  · refine ⟨?_, ?_, ?_, ?_, ?_⟩
    · intro hc
      simp only [debugExec, hc]
      exact ⟨rfl, hnone⟩
    · intro cid hc hemp
      simp only [debugExec, hc]
      cases hg : st.get cid with
      | none => exact ⟨rfl, hnone⟩
      | some conv =>
        have hm : conv.messages = [] := by
          unfold ConversationMemoryManager.getMessages at hemp
          rw [hg] at hemp
          exact hemp
        simp only [hm, List.isEmpty_nil]
        rw [if_pos (by trivial)]
        exact ⟨rfl, hnone⟩
    · intro cid conv hc hg hne
      simp only [debugExec, hc, hg]
      have hm : conv.messages.isEmpty = false := by
        cases hmm : conv.messages with
        | nil => exact absurd hmm hne
        | cons a t => rfl
      simp only [hm]
      rw [if_neg (by simp)]
    · refine ⟨debugTrailerPre dinp reply, debugTrailerPost dinp, ?_⟩
      cases hc : dinp.continuation_id with
      | none => simp only [debugExec, hc]; rfl
      | some cid =>
        cases hg : st.get cid with
        | none => simp only [debugExec, hc, hg]; rfl
        | some conv =>
          cases hmm : conv.messages.isEmpty with
          | true =>
            simp only [debugExec, hc, hg, hmm]
            rw [if_pos (by trivial)]
            rfl
          | false =>
            simp only [debugExec, hc, hg, hmm]
            rw [if_neg (by simp)]
            rfl
    · cases hc : dinp.continuation_id with
      | none => simp only [debugExec, hc]
      | some cid =>
        cases hg : st.get cid with
        | none => simp only [debugExec, hc, hg]
        | some conv =>
          cases hmm : conv.messages.isEmpty with
          | true =>
            simp only [debugExec, hc, hg, hmm]
            rw [if_pos (by trivial)]
          | false =>
            simp only [debugExec, hc, hg, hmm]
            rw [if_neg (by simp)]

/-- Claim C4 witness: instantiation on the empty store with a stale
continuation id for the planner input and no continuation id for the debug
input. -/
theorem claim_C4_resolution_and_trailer_witness :
    (plannerExec conversationMemory
        ⟨"s", 1, 1, false, false, none, false, none, none, "m", some 9⟩
        ⟨Role.assistant, "r"⟩ 0).convId = conversationMemory.nextId ∧
      conversationMemory.get conversationMemory.nextId = none :=
  (claim_C4_resolution_and_trailer conversationMemory
    ⟨"s", 1, 1, false, false, none, false, none, none, "m", some 9⟩
    ⟨"s", 1, 1, false, "f", [], [], [], none, none, none, "m", none, none⟩
    ⟨Role.assistant, "r"⟩ 0 (by intro p hp; cases hp)).1.2.1 9 rfl (by decide)

theorem create_step (st : ConversationMemoryManager) (t now : Nat)
    (msgs : List ChatMessage) (md : Metadata)
    (h : WF st t) (ht : t ≤ now) :
    WF (st.create now msgs md).1 now ∧
    (100 < ((st.conversations ++
        [(st.nextId, ConversationMemoryManager.mkConv st.nextId msgs md now)]).filter
          (fun p => !(decide (now - p.2.updated_at > 86400000)))).length →
      (st.create now msgs md).1.conversations =
        ((st.conversations ++
          [(st.nextId, ConversationMemoryManager.mkConv st.nextId msgs md now)]).filter
            (fun p => !(decide (now - p.2.updated_at > 86400000)))).drop
          (((st.conversations ++
            [(st.nextId, ConversationMemoryManager.mkConv st.nextId msgs md now)]).filter
              (fun p => !(decide (now - p.2.updated_at > 86400000)))).length - 100)) := by
  obtain ⟨hids, hlt, hupd, hbound, hmaxc, hmaxa, hlen⟩ := h
  set newE : Nat × ConversationMemory :=
    (st.nextId, ConversationMemoryManager.mkConv st.nextId msgs md now) with hnewE
  have hnewUpd : newE.2.updated_at = now := rfl
  have hnewId : newE.1 = st.nextId := rfl
  set afterSet : List (Nat × ConversationMemory) :=
    st.conversations ++ [newE] with hAS
  have hASlen : afterSet.length = st.conversations.length + 1 := by
    rw [hAS]; simp
  have hids' : afterSet.Pairwise (fun a b => a.1 < b.1) := by
    rw [hAS, List.pairwise_append]
    refine ⟨hids, List.pairwise_singleton _ _, ?_⟩
    intro a ha b hb
    simp only [List.mem_singleton] at hb
    subst hb
    exact hlt a ha
  have hupd' : afterSet.Pairwise (fun a b => a.2.updated_at ≤ b.2.updated_at) := by
    rw [hAS, List.pairwise_append]
    refine ⟨hupd, List.pairwise_singleton _ _, ?_⟩
    intro a ha b hb
    simp only [List.mem_singleton] at hb
    subst hb
    rw [hnewUpd]
    exact Nat.le_trans (hbound a ha) ht
  have hboundNow : ∀ p ∈ afterSet, p.2.updated_at ≤ now := by
    intro p hp
    rw [hAS] at hp
    rcases List.mem_append.mp hp with hold | hnew
    · exact Nat.le_trans (hbound p hold) ht
    · simp only [List.mem_singleton] at hnew
      subst hnew
      rw [hnewUpd]
  have hltNew : ∀ p ∈ afterSet, p.1 < st.nextId + 1 := by
    intro p hp
    rw [hAS] at hp
    rcases List.mem_append.mp hp with hold | hnew
    · exact Nat.lt_succ_of_lt (hlt p hold)
    · simp only [List.mem_singleton] at hnew
      subst hnew
      rw [hnewId]
      exact Nat.lt_succ_self _
  set agePred : Nat × ConversationMemory → Bool :=
    (fun p => !(decide (now - p.2.updated_at > 86400000))) with hagePred
  set afterAge : List (Nat × ConversationMemory) := afterSet.filter agePred
    with hAA
  have hAAsub : List.Sublist afterAge afterSet := by
    rw [hAA]; exact List.filter_sublist _
  have hAAlen : afterAge.length ≤ afterSet.length := hAAsub.length_le
  have hcreate1 : (st.create now msgs md).1 =
      if afterAge.length > 100 then
        { st with
          conversations := afterAge.filter
            (fun p => !((afterSet.mergeSort
              (fun a b => decide (a.2.updated_at ≤ b.2.updated_at))).take
                (afterAge.length - 100)).any (fun q => q.1 == p.1)),
          nextId := st.nextId + 1 }
      else
        { st with conversations := afterAge, nextId := st.nextId + 1 } := by
    simp only [ConversationMemoryManager.create, ConversationMemoryManager.cleanup,
      hmaxa, hmaxc]
  by_cases hcase : afterAge.length > 100
  · -- the count-based pass fires: the store held exactly 100 conversations,
    -- none of which the age pass removed
    have h101 : afterAge.length = 101 := by omega
    have hAAeq : afterAge = afterSet := hAAsub.eq_of_length (by omega)
    have hsorted : afterSet.mergeSort
        (fun a b => decide (a.2.updated_at ≤ b.2.updated_at)) = afterSet := by
      apply List.mergeSort_of_sorted
      exact hupd'.imp (fun hab => decide_eq_true hab)
    rw [hcreate1, if_pos hcase]
    cases hA : afterSet with
    | nil =>
      rw [hA] at hASlen
      simp at hASlen
    | cons e0 rest =>
      rw [← hA]
      have hrestLen : rest.length = 100 := by
        have h2 := h101
        rw [hAAeq, hA] at h2
        simp only [List.length_cons] at h2
        omega
      have htake : (afterSet.mergeSort
          (fun a b => decide (a.2.updated_at ≤ b.2.updated_at))).take
            (afterAge.length - 100) = [e0] := by
        rw [hsorted, h101, hA]
        rfl
      have he0rest : ∀ p ∈ rest, e0.1 < p.1 := by
        have := hids'
        rw [hA] at this
        exact (List.pairwise_cons.mp this).1
      have hfinal : afterAge.filter
          (fun p => !((afterSet.mergeSort
            (fun a b => decide (a.2.updated_at ≤ b.2.updated_at))).take
              (afterAge.length - 100)).any (fun q => q.1 == p.1)) = rest := by
        rw [htake, hAAeq, hA]
        rw [List.filter_cons]
        rw [if_neg (by simp)]
        rw [List.filter_eq_self.mpr]
        intro p hp
        have hne : e0.1 ≠ p.1 := Nat.ne_of_lt (he0rest p hp)
        simp [hne]
      constructor
      · -- well-formedness of the resulting state
        have hidsRest : rest.Pairwise (fun a b => a.1 < b.1) := by
          have := hids'
          rw [hA] at this
          exact (List.pairwise_cons.mp this).2
        have hupdRest : rest.Pairwise (fun a b => a.2.updated_at ≤ b.2.updated_at) := by
          have := hupd'
          rw [hA] at this
          exact (List.pairwise_cons.mp this).2
        refine ⟨?_, ?_, ?_, ?_, ?_, ?_, ?_⟩
        · simpa [hfinal] using hidsRest
        · intro p hp
          simp only [hfinal] at hp
          exact hltNew p (by rw [hA]; exact List.mem_cons_of_mem _ hp)
        · simpa [hfinal] using hupdRest
        · intro p hp
          simp only [hfinal] at hp
          exact hboundNow p (by rw [hA]; exact List.mem_cons_of_mem _ hp)
        · exact hmaxc
        · exact hmaxa
        · simp only [hfinal]
          omega
      · -- the retained conversations are exactly the capacity-many most
        -- recently updated survivors
        intro hgt
        simp only [hfinal]
        rw [hAAeq, hA]
        simp only [List.length_cons, hrestLen]
        rfl
  · -- the count-based pass does not fire
    rw [hcreate1, if_neg hcase]
    constructor
    · refine ⟨?_, ?_, ?_, ?_, ?_, ?_, ?_⟩
      · exact hids'.filter agePred
      · intro p hp
        exact hltNew p (List.mem_of_mem_filter hp)
      · exact hupd'.filter agePred
      · intro p hp
        exact hboundNow p (List.mem_of_mem_filter hp)
      · exact hmaxc
      · exact hmaxa
      · simpa using Nat.le_of_not_lt hcase
    · intro hgt
      omega

theorem WF_init (t : Nat) : WF ConversationMemoryManager.init t := by
  unfold WF ConversationMemoryManager.init
  refine ⟨List.Pairwise.nil, ?_, List.Pairwise.nil, ?_, rfl, rfl, ?_⟩ <;> simp

theorem runCreatesAux (calls : List (Nat × List ChatMessage × Metadata)) :
    ∀ (st : ConversationMemoryManager) (t : Nat), WF st t →
      (t :: calls.map (fun c => c.1)).Chain' (· ≤ ·) →
      WF (calls.foldl (fun s c => (s.create c.1 c.2.1 c.2.2).1) st)
        ((calls.map (fun c => c.1)).getLastD t) := by
  induction calls with
  | nil =>
    intro st t h _
    simpa using h
  | cons c rest ih =>
    intro st t h hchain
    rw [List.map_cons] at hchain
    obtain ⟨hty, hchain2⟩ := List.chain'_cons.mp hchain
    have step := create_step st t c.1 c.2.1 c.2.2 h hty
    have hrec := ih ((st.create c.1 c.2.1 c.2.2).1) c.1 step.1 hchain2
    simp only [List.map_cons, List.foldl_cons, List.getLastD_cons]
    exact hrec

/-- Claim C1: for every sequence of `create` calls (with the non-decreasing
clock values `Date.now()` produces) followed by a triggering `create`,
`size() ≤ 100` holds immediately afterwards, and whenever the count-based
pass fires (the age survivors exceed the capacity 100) the retained
conversations are exactly the 100 most recently updated survivors: the
survivor list is ordered by `updated_at`, and the pass drops precisely its
oldest entries down to the capacity. -/
theorem claim_C1_capacity_eviction
    (calls : List (Nat × List ChatMessage × Metadata))
    (now : Nat) (msgs : List ChatMessage) (md : Metadata)
    (hmono : ((calls.map (fun c => c.1)) ++ [now]).Chain' (· ≤ ·)) :
    ((runCreates calls).create now msgs md).1.size ≤ 100 ∧
    (100 < (((runCreates calls).conversations ++
        [((runCreates calls).nextId,
          ConversationMemoryManager.mkConv (runCreates calls).nextId msgs md now)]).filter
          (fun p => !(decide (now - p.2.updated_at > 86400000)))).length →
      ((runCreates calls).create now msgs md).1.conversations =
        (((runCreates calls).conversations ++
          [((runCreates calls).nextId,
            ConversationMemoryManager.mkConv (runCreates calls).nextId msgs md now)]).filter
            (fun p => !(decide (now - p.2.updated_at > 86400000)))).drop
          ((((runCreates calls).conversations ++
            [((runCreates calls).nextId,
              ConversationMemoryManager.mkConv (runCreates calls).nextId msgs md now)]).filter
              (fun p => !(decide (now - p.2.updated_at > 86400000)))).length - 100)) := by
  obtain ⟨hchain1, hchain2, hrel⟩ := List.chain'_append.mp hmono
  have hchain0 : (0 :: calls.map (fun c => c.1)).Chain' (· ≤ ·) := by
    rw [List.chain'_cons']
    exact ⟨fun y _ => Nat.zero_le y, hchain1⟩
  have hWF : WF (runCreates calls) ((calls.map (fun c => c.1)).getLastD 0) :=
    runCreatesAux calls conversationMemory 0 (WF_init 0) hchain0
  have hlast : (calls.map (fun c => c.1)).getLastD 0 ≤ now := by
    rw [List.getLastD_eq_getLast?]
    cases hl : (calls.map (fun c => c.1)).getLast? with
    | none => exact Nat.zero_le now
    | some x =>
      have := hrel x hl now rfl
      simpa using this
  have step := create_step (runCreates calls) _ now msgs md hWF hlast
  refine ⟨?_, step.2⟩
  obtain ⟨-, -, -, -, -, -, hlen⟩ := step.1
  exact hlen

/-- Claim C1 witness: instantiation at the empty call sequence and a
triggering create at time 0. -/
theorem claim_C1_capacity_eviction_witness :
    ((runCreates []).create 0 [] []).1.size ≤ 100 ∧
    (100 < (((runCreates []).conversations ++
        [((runCreates []).nextId,
          ConversationMemoryManager.mkConv (runCreates []).nextId [] [] 0)]).filter
          (fun p => !(decide (0 - p.2.updated_at > 86400000)))).length →
      ((runCreates []).create 0 [] []).1.conversations =
        (((runCreates []).conversations ++
          [((runCreates []).nextId,
            ConversationMemoryManager.mkConv (runCreates []).nextId [] [] 0)]).filter
            (fun p => !(decide (0 - p.2.updated_at > 86400000)))).drop
          ((((runCreates []).conversations ++
            [((runCreates []).nextId,
              ConversationMemoryManager.mkConv (runCreates []).nextId [] [] 0)]).filter
              (fun p => !(decide (0 - p.2.updated_at > 86400000)))).length - 100)) :=
  claim_C1_capacity_eviction [] 0 [] [] (by simp)

end Conductor
